import Mathlib

/-!
# Verification of `src/tap/tapify.py`

A shallow embedding of the `tapify` function, which turns a callable
(function or class constructor) into a command-line entry point.

Modelling conventions:
- Python dicts are association lists with Python insertion/update
  semantics (`pyInsert` updates the value in place on an existing key,
  otherwise appends; `pyLookup` finds the entry; `pyDelete` removes it).
  Python guarantees unique keys, which theorems assume where needed.
- Python values (parameter defaults, override values, parsed values,
  command-line tokens) are represented as `String`.
- The external Parser collaborator (the `Tap` object created and driven
  by `tapify`) and the external DocParser (`docstring_parser.parse`) are
  not part of this repository; they enter the embedding as abstract
  function arguments of `tapify`.
- Python exceptions become `Except` errors: the `ValueError` raised for
  unknown keyword arguments, errors propagated from the external parser,
  and the `IndexError` produced by the extra-arguments dictionary
  comprehension on an odd-length token list.
- Invoking the callable is modelled by returning (`Except.ok`) the final
  keyword-argument dictionary that the Python code passes to
  `class_or_function(**command_line_args_dict)`; an `Except.error`
  result means the callable is never invoked.
-/

namespace Tapify

/-- Python dict assignment `d[k] = v`: update the value in place if the
key exists, otherwise append a new entry at the end. -/
def pyInsert {α : Type} : List (String × α) → String → α → List (String × α)
  | [], k, v => [(k, v)]
  | (k', v') :: d, k, v =>
    if k' == k then (k', v) :: d else (k', v') :: pyInsert d k v

/-- Python dict read `d[k]` / `k in d`: the value at the first entry with
key `k`, if any. -/
def pyLookup {α : Type} (d : List (String × α)) (k : String) : Option α :=
  (d.find? (fun p => p.1 == k)).map Prod.snd

/-- Python `del d[k]`: remove the entry with key `k` (the first one; keys
built through `pyInsert` are unique). -/
def pyDelete {α : Type} : List (String × α) → String → List (String × α)
  | [], _ => []
  | (k', v') :: d, k => if k' == k then d else (k', v') :: pyDelete d k

/-- Python `d.update(other)`: assign every entry of `other` into `d` in
order. -/
def pyUpdate {α : Type} (d other : List (String × α)) : List (String × α) :=
  other.foldl (fun acc p => pyInsert acc p.1 p.2) d

/-- Python dict construction from a list of key-value pairs, in order
(a dict comprehension): later pairs with an equal key override earlier
ones. -/
def buildPyDict {α : Type} (ps : List (String × α)) : List (String × α) :=
  ps.foldl (fun d p => pyInsert d p.1 p.2) []

/-- A type reference stored in `tap._annotations`: either Python `str`
or some other type, identified by name. -/
inductive TapType where
  | strT : TapType
  | namedT : String → TapType
deriving DecidableEq, Repr

/-- A declared parameter annotation: `typing.Any` or a concrete type.
`Parameter.empty` (no annotation) is `Option.none` at the use site. -/
inductive Annot where
  | anyA : Annot
  | declA : TapType → Annot
deriving DecidableEq, Repr

/-- `inspect.Parameter.kind`, restricted to the kinds the data model
distinguishes. -/
inductive ParamKind where
  | positionalOrKeyword : ParamKind
  | varKeyword : ParamKind
deriving DecidableEq, Repr

/-- One formal parameter of the target callable, as read from
`inspect.signature`.  `default = none` models `Parameter.empty`. -/
structure Param where
  name : String
  kind : ParamKind
  annot : Option Annot
  default : Option String
deriving DecidableEq, Repr

/-- `true` exactly for a `VAR_KEYWORD` (`**kwargs`) parameter. -/
def isVarKw (p : Param) : Bool :=
  match p.kind with
  | ParamKind.varKeyword => true
  | ParamKind.positionalOrKeyword => false

/-- The keyword arguments `tapify` passes to `tap._add_argument`: either
`required = True`, or a default value. -/
structure ArgSpec where
  required : Bool
  default : Option String
deriving DecidableEq, Repr

/-- The state of the `Tap` object that `tapify` builds up:
`tap._annotations`, `tap.class_variables` (help comments), and the
registered arguments (flag string paired with its `ArgSpec`). -/
structure TapObject where
  description : String
  explicitBool : Bool
  annots : List (String × TapType)
  classVariables : List (String × String)
  arguments : List (String × ArgSpec)
deriving DecidableEq, Repr

/-- Result of the external DocParser: short and long descriptions plus
the documented (parameter name, description) pairs, in order. -/
structure DocstringInfo where
  shortDescription : Option String
  longDescription : Option String
  params : List (String × String)
deriving DecidableEq, Repr

/-- The DocstringInfo for absent documentation: every field empty. -/
def emptyDocstringInfo : DocstringInfo := ⟨none, none, []⟩

/-- `"\n".join(filter(None, (docstring.short_description,
docstring.long_description)))`. -/
def joinDescription (info : DocstringInfo) : String :=
  String.intercalate "\n"
    ((([info.shortDescription, info.longDescription]).filterMap id).filter
      (fun s => s != ""))

/-- The mutable locals of the parameter loop in `tapify`: the `Tap`
object, `has_kwargs`, `known_only`, and the (destructively consumed)
`func_kwargs`. -/
structure BuildState where
  tap : TapObject
  hasKwargs : Bool
  knownOnly : Bool
  funcKwargs : List (String × String)
deriving DecidableEq, Repr

/-- The annotation block of src/tap/tapify.py lines 66-72: record the
effective type in `tap._annotations` (with `Any` mapped to `str`), or
record nothing when the parameter has no annotation. -/
def annotStep (tap : TapObject) (p : Param) : TapObject :=
  match p.annot with
  | none => tap
  | some Annot.anyA =>
    { tap with annots := pyInsert tap.annots p.name TapType.strT }
  | some (Annot.declA t) =>
    { tap with annots := pyInsert tap.annots p.name t }

/-- The default/required block of src/tap/tapify.py lines 74-81: a
matching `func_kwargs` entry becomes the default and is deleted;
otherwise a declared default is used; otherwise the argument is
required.  Returns the `ArgSpec` together with the updated
`func_kwargs`. -/
def defaultStep (funcKwargs : List (String × String)) (p : Param) :
    ArgSpec × List (String × String) :=
  match pyLookup funcKwargs p.name with
  | some v => (ArgSpec.mk false (some v), pyDelete funcKwargs p.name)
  | none =>
    match p.default with
    | some d => (ArgSpec.mk false (some d), funcKwargs)
    | none => (ArgSpec.mk true none, funcKwargs)

/-- The help block of src/tap/tapify.py lines 84-85: attach the
docstring description as a comment in `tap.class_variables` when one
exists for this parameter name. -/
def helpStep (paramToDescription : List (String × String))
    (tap : TapObject) (p : Param) : TapObject :=
  match pyLookup paramToDescription p.name with
  | some desc =>
    { tap with classVariables := pyInsert tap.classVariables p.name desc }
  | none => tap

/-- One iteration of the loop
`for param_name, param in sig.parameters.items()` in `tapify`
(src/tap/tapify.py lines 56-88): skip `**kwargs` (recording
`has_kwargs` and forcing `known_only`), or run the annotation,
default/required and help blocks and register
`tap._add_argument(f"--\x7bparam_name\x7d", **tap_kwargs)`. -/
def processParam (paramToDescription : List (String × String))
    (st : BuildState) (p : Param) : BuildState :=
  match p.kind with
  | ParamKind.varKeyword =>
    { st with hasKwargs := true, knownOnly := true }
  | ParamKind.positionalOrKeyword =>
    let tap2 := helpStep paramToDescription (annotStep st.tap p) p
    let step := defaultStep st.funcKwargs p
    { st with
      tap := { tap2 with
               arguments := tap2.arguments ++ [("--" ++ p.name, step.1)] },
      funcKwargs := step.2 }

/-- The `Tap` object as freshly constructed:
`Tap(description=description, explicit_bool=explicit_bool)`. -/
def initialTap (description : String) (explicitBool : Bool) : TapObject :=
  ⟨description, explicitBool, [], [], []⟩

/-- The whole parameter loop of `tapify`, starting from the fresh `Tap`
object, `has_kwargs = False`, and the caller-supplied `known_only` and
`func_kwargs`. -/
def buildSchema (paramToDescription : List (String × String))
    (description : String) (explicitBool knownOnly : Bool)
    (funcKwargs : List (String × String)) (params : List Param) : BuildState :=
  params.foldl (processParam paramToDescription)
    ⟨initialTap description explicitBool, false, knownOnly, funcKwargs⟩

/-- The state after the loop, with the dict
`{param.arg_name: param.description for param in docstring.params}` and
the joined description computed from the DocstringInfo. -/
def schemaState (info : DocstringInfo) (knownOnly explicitBool : Bool)
    (funcKwargs : List (String × String)) (params : List Param) : BuildState :=
  buildSchema (buildPyDict info.params) (joinDescription info)
    explicitBool knownOnly funcKwargs params

/-- Output of the external parser (`tap.parse_args` followed by
`.as_dict()` and `tap.extra_args`): the named parsed values and the
leftover unrecognized tokens. -/
structure ParsedResult where
  values : List (String × String)
  extraArgs : List String
deriving DecidableEq, Repr

/-- The external Parser collaborator: given the built `Tap` object and
the effective `known_only` flag, it either fails or returns a
`ParsedResult`. -/
def Parser : Type := TapObject → Bool → Except String ParsedResult

/-- The Python exceptions that `tapify` itself can surface before the
callable is invoked. -/
inductive TapifyError where
  | unknownKwargs : List (String × String) → TapifyError
  | parserError : String → TapifyError
  | indexError : TapifyError
deriving DecidableEq, Repr

/-- `tap.extra_args[i].lstrip("-")`: strip every leading dash. -/
def pyLstripDash (s : String) : String :=
  String.mk (s.toList.dropWhile (fun c => c == '-'))

/-- The pairs `(extra_args[i].lstrip("-"), extra_args[i + 1])` for
`i in range(0, len(extra_args), 2)`, in order; accessing
`extra_args[i + 1]` past the end raises `IndexError`, modelled by
`Except.error`. -/
def extraPairs : List String → Except Unit (List (String × String))
  | [] => Except.ok []
  | [_] => Except.error ()
  | f :: v :: rest =>
    (extraPairs rest).map (fun ps => (pyLstripDash f, v) :: ps)

/-- The dict comprehension of src/tap/tapify.py line 102:
`{tap.extra_args[i].lstrip("-"): tap.extra_args[i + 1] for i in
range(0, len(tap.extra_args), 2)}`. -/
def extraKwargsDict (extraArgs : List String) :
    Except Unit (List (String × String)) :=
  (extraPairs extraArgs).map buildPyDict

/-- The body of `tapify` after the docstring has been parsed: build the
schema, check for leftover `func_kwargs`, run the external parser, fold
extra tokens into keyword arguments when `**kwargs` is present, and
produce the final keyword-argument dict for the call
(src/tap/tapify.py lines 48-107). -/
def tapifyCore (parser : Parser) (info : DocstringInfo) (params : List Param)
    (knownOnly explicitBool : Bool) (funcKwargs : List (String × String)) :
    Except TapifyError (List (String × String)) :=
  let st := schemaState info knownOnly explicitBool funcKwargs params
  if !st.funcKwargs.isEmpty && !st.knownOnly then
    Except.error (TapifyError.unknownKwargs st.funcKwargs)
  else
    match parser st.tap st.knownOnly with
    | Except.error e => Except.error (TapifyError.parserError e)
    | Except.ok res =>
      if st.hasKwargs then
        match extraKwargsDict res.extraArgs with
        | Except.error _ => Except.error TapifyError.indexError
        | Except.ok kw => Except.ok (pyUpdate res.values kw)
      else
        Except.ok res.values

/-- The target callable: whether it is a class, the documentation of its
constructor (`__init__.__doc__`), its own documentation (`__doc__`), and
its signature. -/
structure Callable where
  isClass : Bool
  initDoc : Option String
  ownDoc : Option String
  params : List Param

/-- The docstring selection of src/tap/tapify.py lines 37-40:
for a class whose constructor has documentation, use that; otherwise use
the documentation of the callable itself. -/
def selectDoc (c : Callable) : Option String :=
  if c.isClass && c.initDoc.isSome then c.initDoc else c.ownDoc

/-- The full `tapify` pipeline, abstract in the external DocParser
(`docParse`) and Parser (`parser`) collaborators.  The `Except.ok`
payload is the keyword-argument dict of the final call
`class_or_function(**command_line_args_dict)`. -/
def tapify (docParse : Option String → DocstringInfo) (parser : Parser)
    (c : Callable) (knownOnly explicitBool : Bool)
    (funcKwargs : List (String × String)) :
    Except TapifyError (List (String × String)) :=
  tapifyCore parser (docParse (selectDoc c)) c.params knownOnly explicitBool
    funcKwargs

/-! ## Lemmas about the Python dict model -/

theorem pyLookup_nil {α : Type} (k : String) :
    pyLookup ([] : List (String × α)) k = none := rfl

theorem pyLookup_cons {α : Type} (a : String × α) (d : List (String × α))
    (k : String) :
    pyLookup (a :: d) k = if a.1 = k then some a.2 else pyLookup d k := by
  by_cases h : a.1 = k
  · simp [pyLookup, List.find?, h]
  · have hb : (a.1 == k) = false := beq_eq_false_iff_ne.mpr h
    simp [pyLookup, List.find?, hb, h]

theorem pyLookup_insert {α : Type} (d : List (String × α)) (k k' : String)
    (v : α) :
    pyLookup (pyInsert d k v) k' = if k' = k then some v else pyLookup d k' := by
  induction d with
  | nil =>
    by_cases h : k' = k <;> simp [pyInsert, pyLookup_cons, pyLookup_nil, h]
    exact fun h' => absurd h'.symm h
  | cons a d ih =>
    by_cases hak : a.1 = k
    · rw [show pyInsert (a :: d) k v = (a.1, v) :: d by
        simp [pyInsert, hak]]
      by_cases h : k' = k
      · simp [pyLookup_cons, hak, h]
      · have : ¬ a.1 = k' := fun hc => h (hc ▸ hak)
        simp [pyLookup_cons, this, h]
    · rw [show pyInsert (a :: d) k v = a :: pyInsert d k v by
        simp [pyInsert, hak]]
      by_cases hk' : a.1 = k'
      · have : ¬ k' = k := fun hc => hak (hc ▸ hk')
        simp [pyLookup_cons, hk', this]
      · simp [pyLookup_cons, hk', ih]

theorem pyLookup_eq_none_of_not_mem {α : Type} (d : List (String × α))
    (k : String) (h : k ∉ d.map Prod.fst) : pyLookup d k = none := by
  induction d with
  | nil => rfl
  | cons a d ih =>
    simp only [List.map_cons, List.mem_cons] at h
    push_neg at h
    rw [pyLookup_cons]
    simp [Ne.symm h.1, ih h.2]

theorem pyDelete_of_not_mem {α : Type} (d : List (String × α)) (k : String)
    (h : k ∉ d.map Prod.fst) : pyDelete d k = d := by
  induction d with
  | nil => rfl
  | cons a d ih =>
    simp only [List.map_cons, List.mem_cons] at h
    push_neg at h
    have hb : (a.1 == k) = false := beq_eq_false_iff_ne.mpr (Ne.symm h.1)
    simp [pyDelete, hb, ih h.2]

theorem pyLookup_delete_self {α : Type} (d : List (String × α)) (k : String)
    (h : (d.map Prod.fst).Nodup) : pyLookup (pyDelete d k) k = none := by
  induction d with
  | nil => rfl
  | cons a d ih =>
    simp only [List.map_cons, List.nodup_cons] at h
    by_cases hak : a.1 = k
    · rw [show pyDelete (a :: d) k = d by simp [pyDelete, hak]]
      exact pyLookup_eq_none_of_not_mem d k (hak ▸ h.1)
    · rw [show pyDelete (a :: d) k = a :: pyDelete d k by simp [pyDelete, hak]]
      rw [pyLookup_cons]
      simp [hak, ih h.2]

theorem pyLookup_delete_other {α : Type} (d : List (String × α))
    (k k' : String) (h : k' ≠ k) :
    pyLookup (pyDelete d k) k' = pyLookup d k' := by
  induction d with
  | nil => rfl
  | cons a d ih =>
    by_cases hak : a.1 = k
    · rw [show pyDelete (a :: d) k = d by simp [pyDelete, hak]]
      rw [pyLookup_cons]
      have hne : ¬ a.1 = k' := fun hc => h (by rw [← hc]; exact hak)
      simp [hne]
    · rw [show pyDelete (a :: d) k = a :: pyDelete d k by simp [pyDelete, hak]]
      rw [pyLookup_cons, pyLookup_cons, ih]

theorem pyLookup_append_of_not_mem {α : Type} (d junk : List (String × α))
    (k : String) (h : k ∉ junk.map Prod.fst) :
    pyLookup (d ++ junk) k = pyLookup d k := by
  induction d with
  | nil => simpa using pyLookup_eq_none_of_not_mem junk k h
  | cons a d ih => rw [List.cons_append, pyLookup_cons, pyLookup_cons, ih]

theorem pyDelete_append_of_not_mem {α : Type} (d junk : List (String × α))
    (k : String) (h : k ∉ junk.map Prod.fst) :
    pyDelete (d ++ junk) k = pyDelete d k ++ junk := by
  induction d with
  | nil => simpa using pyDelete_of_not_mem junk k h
  | cons a d ih =>
    by_cases hak : a.1 = k
    · simp [pyDelete, hak]
    · simp only [List.cons_append]
      rw [show pyDelete (a :: (d ++ junk)) k = a :: pyDelete (d ++ junk) k by
        simp [pyDelete, hak]]
      rw [show pyDelete (a :: d) k = a :: pyDelete d k by simp [pyDelete, hak]]
      rw [ih, List.cons_append]

theorem mem_pyInsert_fst {α : Type} (d : List (String × α)) (k : String)
    (v : α) (k' : String) (hq : k' ∈ (pyInsert d k v).map Prod.fst) :
    k' ∈ d.map Prod.fst ∨ k' = k := by
  induction d with
  | nil =>
    simp [pyInsert] at hq
    simp [hq]
  | cons a d ih =>
    by_cases hak : a.1 = k
    · rw [show pyInsert (a :: d) k v = (a.1, v) :: d by simp [pyInsert, hak]] at hq
      simp only [List.map_cons, List.mem_cons] at hq
      left
      simp only [List.map_cons, List.mem_cons]
      exact hq
    · rw [show pyInsert (a :: d) k v = a :: pyInsert d k v by
        simp [pyInsert, hak]] at hq
      simp only [List.map_cons, List.mem_cons] at hq
      rcases hq with h | h
      · left
        simp [h]
      · rcases ih h with h' | h'
        · left
          simp only [List.map_cons, List.mem_cons]
          exact Or.inr h'
        · exact Or.inr h'

theorem foldl_pyInsert_fst {α : Type} (ps : List (String × α))
    (d : List (String × α)) (q : String × α)
    (hq : q ∈ ps.foldl (fun d p => pyInsert d p.1 p.2) d) :
    q.1 ∈ ps.map Prod.fst ∨ q.1 ∈ d.map Prod.fst := by
  induction ps generalizing d with
  | nil => exact Or.inr (List.mem_map_of_mem Prod.fst hq)
  | cons a ps ih =>
    rcases ih (pyInsert d a.1 a.2) hq with h' | h'
    · left
      simp only [List.map_cons, List.mem_cons]
      exact Or.inr h'
    · rcases mem_pyInsert_fst d a.1 a.2 q.1 h' with h'' | h''
      · exact Or.inr h''
      · left
        simp only [List.map_cons, List.mem_cons]
        exact Or.inl h''

theorem mem_buildPyDict_fst {α : Type} (ps : List (String × α))
    (q : String × α) (hq : q ∈ buildPyDict ps) : q.1 ∈ ps.map Prod.fst := by
  rcases foldl_pyInsert_fst ps [] q hq with h | h
  · exact h
  · simp at h

theorem pyLookup_pyUpdate_of_not_mem {α : Type} (d other : List (String × α))
    (k : String) (h : ∀ q ∈ other, q.1 ≠ k) :
    pyLookup (pyUpdate d other) k = pyLookup d k := by
  induction other generalizing d with
  | nil => rfl
  | cons a other ih =>
    have : pyUpdate d (a :: other) = pyUpdate (pyInsert d a.1 a.2) other := rfl
    rw [this, ih _ (fun q hq => h q (List.mem_cons_of_mem a hq)),
      pyLookup_insert]
    have hne : ¬ k = a.1 := fun hc => h a (List.mem_cons_self a other) hc.symm
    simp [hne]

theorem find?_append {α : Type} (p : α → Bool) (l₁ l₂ : List α) :
    List.find? p (l₁ ++ l₂) =
      (List.find? p l₁).orElse (fun _ => List.find? p l₂) := by
  induction l₁ with
  | nil => rfl
  | cons a l₁ ih =>
    cases hp : p a with
    | true => simp [List.find?, hp, Option.orElse]
    | false =>
      rw [List.cons_append]
      simp only [List.find?, hp]
      exact ih

theorem pyLookup_foldl_insert {α : Type} (ps : List (String × α))
    (d : List (String × α)) (k : String) :
    pyLookup (ps.foldl (fun acc q => pyInsert acc q.1 q.2) d) k =
      match List.find? (fun q => q.1 == k) ps.reverse with
      | some q => some q.2
      | none => pyLookup d k := by
  induction ps generalizing d with
  | nil => rfl
  | cons a ps ih =>
    have step : (a :: ps).foldl (fun acc q => pyInsert acc q.1 q.2) d =
        ps.foldl (fun acc q => pyInsert acc q.1 q.2) (pyInsert d a.1 a.2) := rfl
    rw [step, ih]
    have hrev : (a :: ps).reverse = ps.reverse ++ [a] := by
      simp
    rw [hrev, find?_append]
    cases hf : List.find? (fun q => q.1 == k) ps.reverse with
    | some q => simp [Option.orElse]
    | none =>
      simp only [Option.orElse, pyLookup_insert]
      by_cases h : a.1 = k
      · have hb : (a.1 == k) = true := beq_iff_eq.mpr h
        simp [List.find?, hb, h]
      · have hb : (a.1 == k) = false := beq_eq_false_iff_ne.mpr h
        simp [List.find?, hb, Ne.symm h]

theorem pyLookup_buildPyDict {α : Type} (ps : List (String × α)) (k : String) :
    pyLookup (buildPyDict ps) k =
      (List.find? (fun q => q.1 == k) ps.reverse).map Prod.snd := by
  rw [buildPyDict, pyLookup_foldl_insert]
  cases List.find? (fun q => q.1 == k) ps.reverse with
  | some q => rfl
  | none => rfl

theorem extraPairs_error_of_odd (ts : List String)
    (h : ts.length % 2 = 1) : extraPairs ts = Except.error () := by
  induction ts using extraPairs.induct with
  | case1 => simp at h
  | case2 t => rfl
  | case3 f v rest ih =>
    have : rest.length % 2 = 1 := by
      simp only [List.length_cons] at h
      omega
    simp [extraPairs, ih this, Except.map]

theorem extraPairs_ok_of_even (ts : List String)
    (h : ts.length % 2 = 0) : ∃ ps, extraPairs ts = Except.ok ps := by
  induction ts using extraPairs.induct with
  | case1 => exact ⟨[], rfl⟩
  | case2 t => simp at h
  | case3 f v rest ih =>
    have : rest.length % 2 = 0 := by
      simp only [List.length_cons] at h
      omega
    rcases ih this with ⟨ps, hps⟩
    exact ⟨(pyLstripDash f, v) :: ps, by simp [extraPairs, hps, Except.map]⟩

/-! ## Lemmas about the parameter loop -/

theorem processParam_hasKwargs (ptd : List (String × String))
    (st : BuildState) (p : Param) :
    (processParam ptd st p).hasKwargs = (st.hasKwargs || isVarKw p) := by
  cases hk : p.kind <;> simp [processParam, isVarKw, hk]

theorem processParam_knownOnly (ptd : List (String × String))
    (st : BuildState) (p : Param) :
    (processParam ptd st p).knownOnly = (st.knownOnly || isVarKw p) := by
  cases hk : p.kind <;> simp [processParam, isVarKw, hk]

theorem foldl_hasKwargs (ptd : List (String × String)) (ps : List Param)
    (st : BuildState) :
    (ps.foldl (processParam ptd) st).hasKwargs =
      (st.hasKwargs || ps.any isVarKw) := by
  induction ps generalizing st with
  | nil => simp
  | cons p ps ih =>
    rw [List.foldl_cons, ih, processParam_hasKwargs]
    simp [Bool.or_assoc]

theorem foldl_knownOnly (ptd : List (String × String)) (ps : List Param)
    (st : BuildState) :
    (ps.foldl (processParam ptd) st).knownOnly =
      (st.knownOnly || ps.any isVarKw) := by
  induction ps generalizing st with
  | nil => simp
  | cons p ps ih =>
    rw [List.foldl_cons, ih, processParam_knownOnly]
    simp [Bool.or_assoc]

theorem buildSchema_hasKwargs (ptd : List (String × String))
    (desc : String) (eb ko : Bool) (fk : List (String × String))
    (ps : List Param) :
    (buildSchema ptd desc eb ko fk ps).hasKwargs = ps.any isVarKw := by
  rw [buildSchema, foldl_hasKwargs]
  rfl

theorem buildSchema_knownOnly (ptd : List (String × String))
    (desc : String) (eb ko : Bool) (fk : List (String × String))
    (ps : List Param) :
    (buildSchema ptd desc eb ko fk ps).knownOnly = (ko || ps.any isVarKw) := by
  rw [buildSchema, foldl_knownOnly]

theorem processParam_congr (ptd : List (String × String)) (p : Param)
    (st st' : BuildState) (h1 : st.tap = st'.tap)
    (h2 : st.funcKwargs = st'.funcKwargs) :
    (processParam ptd st p).tap = (processParam ptd st' p).tap ∧
      (processParam ptd st p).funcKwargs = (processParam ptd st' p).funcKwargs := by
  cases hk : p.kind with
  | varKeyword => simp [processParam, hk, h1, h2]
  | positionalOrKeyword => simp [processParam, hk, h1, h2]

theorem foldl_congr (ptd : List (String × String)) (ps : List Param)
    (st st' : BuildState) (h1 : st.tap = st'.tap)
    (h2 : st.funcKwargs = st'.funcKwargs) :
    (ps.foldl (processParam ptd) st).tap =
        (ps.foldl (processParam ptd) st').tap ∧
      (ps.foldl (processParam ptd) st).funcKwargs =
        (ps.foldl (processParam ptd) st').funcKwargs := by
  induction ps generalizing st st' with
  | nil => exact ⟨h1, h2⟩
  | cons p ps ih =>
    rcases processParam_congr ptd p st st' h1 h2 with ⟨h1', h2'⟩
    exact ih (processParam ptd st p) (processParam ptd st' p) h1' h2'

theorem foldl_filter_varKw (ptd : List (String × String)) (ps : List Param)
    (st : BuildState) :
    ((ps.filter (fun p => !isVarKw p)).foldl (processParam ptd) st).tap =
        (ps.foldl (processParam ptd) st).tap ∧
      ((ps.filter (fun p => !isVarKw p)).foldl (processParam ptd) st).funcKwargs =
        (ps.foldl (processParam ptd) st).funcKwargs := by
  induction ps generalizing st with
  | nil => exact ⟨rfl, rfl⟩
  | cons p ps ih =>
    by_cases hv : isVarKw p = true
    · have hfil : (p :: ps).filter (fun p => !isVarKw p) =
          ps.filter (fun p => !isVarKw p) := by
        simp [List.filter_cons, hv]
      have hstep : processParam ptd st p =
          { st with hasKwargs := true, knownOnly := true } := by
        cases hk : p.kind with
        | varKeyword => simp [processParam, hk]
        | positionalOrKeyword => simp [isVarKw, hk] at hv
      rw [hfil, List.foldl_cons, hstep]
      rcases ih st with ⟨ih1, ih2⟩
      rcases foldl_congr ptd ps st { st with hasKwargs := true, knownOnly := true }
        rfl rfl with ⟨hc1, hc2⟩
      exact ⟨ih1.trans hc1, ih2.trans hc2⟩
    · have hfil : (p :: ps).filter (fun p => !isVarKw p) =
          p :: ps.filter (fun p => !isVarKw p) := by
        simp [List.filter_cons, hv]
      rw [hfil, List.foldl_cons, List.foldl_cons]
      exact ih (processParam ptd st p)

theorem defaultStep_appendJunk (fk junk : List (String × String)) (p : Param)
    (hj : p.name ∉ junk.map Prod.fst) :
    (defaultStep (fk ++ junk) p).1 = (defaultStep fk p).1 ∧
      (defaultStep (fk ++ junk) p).2 = (defaultStep fk p).2 ++ junk := by
  rw [defaultStep, defaultStep, pyLookup_append_of_not_mem fk junk p.name hj]
  cases hlook : pyLookup fk p.name with
  | some v =>
    rw [pyDelete_append_of_not_mem fk junk p.name hj]
    exact ⟨rfl, rfl⟩
  | none =>
    cases hdef : p.default <;> exact ⟨rfl, rfl⟩

theorem processParam_appendJunk (ptd : List (String × String))
    (st : BuildState) (junk : List (String × String)) (p : Param)
    (hj : p.name ∉ junk.map Prod.fst) :
    processParam ptd { st with funcKwargs := st.funcKwargs ++ junk } p =
      { processParam ptd st p with
        funcKwargs := (processParam ptd st p).funcKwargs ++ junk } := by
  rcases defaultStep_appendJunk st.funcKwargs junk p hj with ⟨hd1, hd2⟩
  cases hk : p.kind with
  | varKeyword => simp [processParam, hk]
  | positionalOrKeyword => simp [processParam, hk, hd1, hd2]

theorem foldl_appendJunk (ptd : List (String × String)) (ps : List Param)
    (junk : List (String × String)) (st : BuildState)
    (h : ∀ p ∈ ps, p.name ∉ junk.map Prod.fst) :
    ps.foldl (processParam ptd) { st with funcKwargs := st.funcKwargs ++ junk } =
      { ps.foldl (processParam ptd) st with
        funcKwargs := (ps.foldl (processParam ptd) st).funcKwargs ++ junk } := by
  induction ps generalizing st with
  | nil => rfl
  | cons p ps ih =>
    rw [List.foldl_cons, List.foldl_cons,
      processParam_appendJunk ptd st junk p (h p (List.mem_cons_self p ps))]
    exact ih (processParam ptd st p)
      (fun q hq => h q (List.mem_cons_of_mem p hq))

theorem annotStep_arguments (tap : TapObject) (p : Param) :
    (annotStep tap p).arguments = tap.arguments := by
  unfold annotStep
  cases p.annot with
  | none => rfl
  | some a => cases a <;> rfl

theorem helpStep_arguments (ptd : List (String × String)) (tap : TapObject)
    (p : Param) : (helpStep ptd tap p).arguments = tap.arguments := by
  unfold helpStep
  cases pyLookup ptd p.name <;> rfl

theorem helpStep_annots (ptd : List (String × String)) (tap : TapObject)
    (p : Param) : (helpStep ptd tap p).annots = tap.annots := by
  unfold helpStep
  cases pyLookup ptd p.name <;> rfl

theorem processParam_varKw (ptd : List (String × String)) (st : BuildState)
    (p : Param) (hk : p.kind = ParamKind.varKeyword) :
    processParam ptd st p = { st with hasKwargs := true, knownOnly := true } := by
  simp [processParam, hk]

theorem processParam_arguments (ptd : List (String × String))
    (st : BuildState) (p : Param)
    (hk : p.kind = ParamKind.positionalOrKeyword) :
    (processParam ptd st p).tap.arguments =
      st.tap.arguments ++ [("--" ++ p.name, (defaultStep st.funcKwargs p).1)] := by
  simp [processParam, hk, helpStep_arguments, annotStep_arguments]

theorem processParam_funcKwargs (ptd : List (String × String))
    (st : BuildState) (p : Param)
    (hk : p.kind = ParamKind.positionalOrKeyword) :
    (processParam ptd st p).funcKwargs = (defaultStep st.funcKwargs p).2 := by
  simp [processParam, hk]

theorem processParam_annots (ptd : List (String × String))
    (st : BuildState) (p : Param)
    (hk : p.kind = ParamKind.positionalOrKeyword) :
    (processParam ptd st p).tap.annots = (annotStep st.tap p).annots := by
  simp [processParam, hk, helpStep_annots]

theorem defaultStep_override (fk : List (String × String)) (p : Param)
    (O : String) (hO : pyLookup fk p.name = some O) :
    defaultStep fk p = (ArgSpec.mk false (some O), pyDelete fk p.name) := by
  simp [defaultStep, hO]

theorem defaultStep_declared (fk : List (String × String)) (p : Param)
    (D : String) (h1 : pyLookup fk p.name = none) (h2 : p.default = some D) :
    defaultStep fk p = (ArgSpec.mk false (some D), fk) := by
  simp [defaultStep, h1, h2]

theorem defaultStep_required (fk : List (String × String)) (p : Param)
    (h1 : pyLookup fk p.name = none) (h2 : p.default = none) :
    defaultStep fk p = (ArgSpec.mk true none, fk) := by
  simp [defaultStep, h1, h2]

theorem defaultStep_required_iff (fk : List (String × String)) (p : Param) :
    ((defaultStep fk p).1.required = true) ↔
      ((defaultStep fk p).1.default = none) := by
  unfold defaultStep
  cases pyLookup fk p.name with
  | some v => simp
  | none => cases p.default <;> simp

theorem foldl_arguments_inv (ptd : List (String × String)) (ps : List Param)
    (st : BuildState)
    (h : ∀ e ∈ st.tap.arguments, (e.2.required = true ↔ e.2.default = none)) :
    ∀ e ∈ (ps.foldl (processParam ptd) st).tap.arguments,
      (e.2.required = true ↔ e.2.default = none) := by
  induction ps generalizing st with
  | nil => exact h
  | cons p ps ih =>
    rw [List.foldl_cons]
    apply ih
    intro e he
    cases hk : p.kind with
    | varKeyword =>
      rw [processParam_varKw ptd st p hk] at he
      exact h e he
    | positionalOrKeyword =>
      rw [processParam_arguments ptd st p hk] at he
      rcases List.mem_append.mp he with hold | hnew
      · exact h e hold
      · have : e = ("--" ++ p.name, (defaultStep st.funcKwargs p).1) := by
          simpa using hnew
        rw [this]
        exact defaultStep_required_iff st.funcKwargs p

theorem schemaState_appendJunk (info : DocstringInfo) (ko eb : Bool)
    (fk junk : List (String × String)) (ps : List Param)
    (h : ∀ p ∈ ps, p.name ∉ junk.map Prod.fst) :
    schemaState info ko eb (fk ++ junk) ps =
      { schemaState info ko eb fk ps with
        funcKwargs := (schemaState info ko eb fk ps).funcKwargs ++ junk } := by
  unfold schemaState buildSchema
  exact foldl_appendJunk (buildPyDict info.params) ps junk
    ⟨initialTap (joinDescription info) eb, false, ko, fk⟩ h

theorem schemaState_hasKwargs (info : DocstringInfo) (ko eb : Bool)
    (fk : List (String × String)) (ps : List Param) :
    (schemaState info ko eb fk ps).hasKwargs = ps.any isVarKw :=
  buildSchema_hasKwargs (buildPyDict info.params) (joinDescription info)
    eb ko fk ps

theorem schemaState_knownOnly (info : DocstringInfo) (ko eb : Bool)
    (fk : List (String × String)) (ps : List Param) :
    (schemaState info ko eb fk ps).knownOnly = (ko || ps.any isVarKw) :=
  buildSchema_knownOnly (buildPyDict info.params) (joinDescription info)
    eb ko fk ps

theorem schemaState_knownOnly_of_hasKwargs (info : DocstringInfo)
    (ko eb : Bool) (fk : List (String × String)) (ps : List Param)
    (h : (schemaState info ko eb fk ps).hasKwargs = true) :
    (schemaState info ko eb fk ps).knownOnly = true := by
  rw [schemaState_hasKwargs] at h
  rw [schemaState_knownOnly, h, Bool.or_true]

theorem tapifyCore_error_unknown (parser : Parser) (info : DocstringInfo)
    (params : List Param) (ko eb : Bool) (fk : List (String × String))
    (hne : (schemaState info ko eb fk params).funcKwargs ≠ [])
    (hko : (schemaState info ko eb fk params).knownOnly = false) :
    tapifyCore parser info params ko eb fk =
      Except.error
        (TapifyError.unknownKwargs (schemaState info ko eb fk params).funcKwargs) := by
  have hcond : (!(schemaState info ko eb fk params).funcKwargs.isEmpty &&
      !(schemaState info ko eb fk params).knownOnly) = true := by
    rw [hko]
    cases hfk : (schemaState info ko eb fk params).funcKwargs with
    | nil => exact absurd hfk hne
    | cons a l => simp [List.isEmpty]
  simp [tapifyCore, hcond]

theorem tapifyCore_lenient (parser : Parser) (info : DocstringInfo)
    (params : List Param) (ko eb : Bool) (fk : List (String × String))
    (hko : (schemaState info ko eb fk params).knownOnly = true) :
    tapifyCore parser info params ko eb fk =
      match parser (schemaState info ko eb fk params).tap true with
      | Except.error e => Except.error (TapifyError.parserError e)
      | Except.ok res =>
        if (schemaState info ko eb fk params).hasKwargs then
          match extraKwargsDict res.extraArgs with
          | Except.error _ => Except.error TapifyError.indexError
          | Except.ok kw => Except.ok (pyUpdate res.values kw)
        else
          Except.ok res.values := by
  simp [tapifyCore, hko]

theorem tapifyCore_ne_unknown (parser : Parser) (info : DocstringInfo)
    (params : List Param) (ko eb : Bool) (fk : List (String × String))
    (hko : (schemaState info ko eb fk params).knownOnly = true)
    (l : List (String × String)) :
    tapifyCore parser info params ko eb fk ≠
      Except.error (TapifyError.unknownKwargs l) := by
  rw [tapifyCore_lenient parser info params ko eb fk hko]
  cases hp : parser (schemaState info ko eb fk params).tap true with
  | error e => simp
  | ok res =>
    cases hkw : (schemaState info ko eb fk params).hasKwargs with
    | true =>
      cases hd : extraKwargsDict res.extraArgs with
      | error u => simp [hkw, hd]
      | ok kw => simp [hkw, hd]
    | false => simp [hkw]

/-! ## The claims -/

/-- Claim C1: for a named (non-variadic) parameter the default of the
produced ArgumentSpec comes from the override mapping `func_kwargs`
first — the spec is then not-required and the matched entry is removed
from the mapping, even when a declared default exists; with no override
a declared default is used (not-required); with neither, the parameter
is registered as required with no default. -/
theorem tapify_override_precedence (ptd : List (String × String))
    (st : BuildState) (p : Param)
    (hk : p.kind = ParamKind.positionalOrKeyword)
    (hnd : (st.funcKwargs.map Prod.fst).Nodup) :
    (∀ O, pyLookup st.funcKwargs p.name = some O →
      (processParam ptd st p).tap.arguments =
        st.tap.arguments ++ [("--" ++ p.name, ArgSpec.mk false (some O))] ∧
      pyLookup (processParam ptd st p).funcKwargs p.name = none) ∧
    (pyLookup st.funcKwargs p.name = none → ∀ D, p.default = some D →
      (processParam ptd st p).tap.arguments =
        st.tap.arguments ++ [("--" ++ p.name, ArgSpec.mk false (some D))] ∧
      (processParam ptd st p).funcKwargs = st.funcKwargs) ∧
    (pyLookup st.funcKwargs p.name = none → p.default = none →
      (processParam ptd st p).tap.arguments =
        st.tap.arguments ++ [("--" ++ p.name, ArgSpec.mk true none)] ∧
      (processParam ptd st p).funcKwargs = st.funcKwargs) := by
  refine ⟨?_, ?_, ?_⟩
  · intro O hO
    constructor
    · rw [processParam_arguments ptd st p hk,
        defaultStep_override st.funcKwargs p O hO]
    · rw [processParam_funcKwargs ptd st p hk,
        defaultStep_override st.funcKwargs p O hO]
      exact pyLookup_delete_self st.funcKwargs p.name hnd
  · intro h1 D h2
    constructor
    · rw [processParam_arguments ptd st p hk,
        defaultStep_declared st.funcKwargs p D h1 h2]
    · rw [processParam_funcKwargs ptd st p hk,
        defaultStep_declared st.funcKwargs p D h1 h2]
  · intro h1 h2
    constructor
    · rw [processParam_arguments ptd st p hk,
        defaultStep_required st.funcKwargs p h1 h2]
    · rw [processParam_funcKwargs ptd st p hk,
        defaultStep_required st.funcKwargs p h1 h2]

/-- Witness for C1: a parameter `a` with declared default `"d"` and
override `"ov"` gets default `"ov"` (not `"d"`) and the override is
consumed; with only the declared default the spec has default `"d"`;
with neither it is required with no default. -/
theorem tapify_override_precedence_witness :
    ((processParam [] ⟨initialTap "" false, false, false, [("a", "ov")]⟩
        ⟨"a", ParamKind.positionalOrKeyword, none, some "d"⟩).tap.arguments =
      [("--a", ArgSpec.mk false (some "ov"))] ∧
     pyLookup (processParam [] ⟨initialTap "" false, false, false, [("a", "ov")]⟩
        ⟨"a", ParamKind.positionalOrKeyword, none, some "d"⟩).funcKwargs "a" =
      none) ∧
    (processParam [] ⟨initialTap "" false, false, false, []⟩
        ⟨"a", ParamKind.positionalOrKeyword, none, some "d"⟩).tap.arguments =
      [("--a", ArgSpec.mk false (some "d"))] ∧
    (processParam [] ⟨initialTap "" false, false, false, []⟩
        ⟨"a", ParamKind.positionalOrKeyword, none, none⟩).tap.arguments =
      [("--a", ArgSpec.mk true none)] := by
  refine ⟨⟨?_, ?_⟩, ?_, ?_⟩
  · exact ((tapify_override_precedence [] _ _ rfl (by decide)).1 "ov"
      (by decide)).1
  · exact ((tapify_override_precedence [] _ _ rfl (by decide)).1 "ov"
      (by decide)).2
  · exact ((tapify_override_precedence [] _ _ rfl (by decide)).2.1
      (by decide) "d" rfl).1
  · exact ((tapify_override_precedence [] _ _ rfl (by decide)).2.2
      (by decide) rfl).1

/-- Claim C6: every entry of the built argument schema is exactly one of
required (with no default) or defaulted (not required) — never both and
never neither. -/
theorem tapify_required_xor_default (info : DocstringInfo) (ko eb : Bool)
    (fk : List (String × String)) (ps : List Param) (e : String × ArgSpec)
    (he : e ∈ (schemaState info ko eb fk ps).tap.arguments) :
    (e.2.required = true ↔ e.2.default = none) := by
  refine foldl_arguments_inv (buildPyDict info.params) ps
    ⟨initialTap (joinDescription info) eb, false, ko, fk⟩ ?_ e he
  intro e he
  simp [initialTap] at he

/-- Witness for C6: concrete schemas with a required entry and with a
defaulted entry both satisfy the invariant. -/
theorem tapify_required_xor_default_witness :
    ((("--a", ArgSpec.mk true none) : String × ArgSpec).2.required = true ↔
      (("--a", ArgSpec.mk true none) : String × ArgSpec).2.default = none) ∧
    ((("--b", ArgSpec.mk false (some "3")) : String × ArgSpec).2.required = true ↔
      (("--b", ArgSpec.mk false (some "3")) : String × ArgSpec).2.default = none) := by
  constructor
  · exact tapify_required_xor_default emptyDocstringInfo false false []
      [⟨"a", ParamKind.positionalOrKeyword, none, none⟩] _ (by decide)
  · exact tapify_required_xor_default emptyDocstringInfo false false []
      [⟨"b", ParamKind.positionalOrKeyword, none, some "3"⟩] _ (by decide)

/-- Claim C7: a VAR_KEYWORD parameter records that extra keyword
arguments are accepted (`has_kwargs`), forces `known_only` to true
regardless of the caller flag, adds no annotation and no argument
registration (the whole `Tap` object and the override consumption are
the same as if the VAR_KEYWORD parameters were absent), and the
remaining parameters are still processed. -/
theorem tapify_var_keyword (ptd : List (String × String)) (desc : String)
    (eb ko : Bool) (fk : List (String × String)) (ps : List Param) :
    (buildSchema ptd desc eb ko fk ps).tap =
      (buildSchema ptd desc eb ko fk (ps.filter (fun p => !isVarKw p))).tap ∧
    (buildSchema ptd desc eb ko fk ps).funcKwargs =
      (buildSchema ptd desc eb ko fk (ps.filter (fun p => !isVarKw p))).funcKwargs ∧
    (buildSchema ptd desc eb ko fk ps).hasKwargs = ps.any isVarKw ∧
    (buildSchema ptd desc eb ko fk ps).knownOnly = (ko || ps.any isVarKw) := by
  rcases foldl_filter_varKw ptd ps ⟨initialTap desc eb, false, ko, fk⟩ with
    ⟨h1, h2⟩
  exact ⟨h1.symm, h2.symm, buildSchema_hasKwargs ptd desc eb ko fk ps,
    buildSchema_knownOnly ptd desc eb ko fk ps⟩

/-- Claim C8: effective type resolution: `Any` becomes `str`, any other
declared type is kept, and an unannotated parameter records no type at
all; the recorded annotation does not depend on the override mapping or
on the declared default. -/
theorem tapify_type_resolution (ptd : List (String × String))
    (st : BuildState) (p : Param)
    (hk : p.kind = ParamKind.positionalOrKeyword) :
    (p.annot = none →
      (processParam ptd st p).tap.annots = st.tap.annots) ∧
    (p.annot = some Annot.anyA →
      (processParam ptd st p).tap.annots =
        pyInsert st.tap.annots p.name TapType.strT) ∧
    (∀ t, p.annot = some (Annot.declA t) →
      (processParam ptd st p).tap.annots =
        pyInsert st.tap.annots p.name t) ∧
    (∀ fk dflt,
      (processParam ptd { st with funcKwargs := fk }
          { p with default := dflt }).tap.annots =
        (processParam ptd st p).tap.annots) := by
  refine ⟨?_, ?_, ?_, ?_⟩
  · intro h
    rw [processParam_annots ptd st p hk]
    simp [annotStep, h]
  · intro h
    rw [processParam_annots ptd st p hk]
    simp [annotStep, h]
  · intro t h
    rw [processParam_annots ptd st p hk]
    simp [annotStep, h]
  · intro fk dflt
    rw [processParam_annots ptd { st with funcKwargs := fk }
        { p with default := dflt } hk,
      processParam_annots ptd st p hk]
    unfold annotStep
    cases p.annot with
    | none => rfl
    | some a => cases a <;> rfl

/-- Witness for C8: an `Any` parameter resolves to `str`, a declared
type is kept, an unannotated parameter records nothing, and changing the
default leaves the annotations unchanged. -/
theorem tapify_type_resolution_witness :
    (processParam [] ⟨initialTap "" false, false, false, []⟩
        ⟨"a", ParamKind.positionalOrKeyword, some Annot.anyA, none⟩).tap.annots =
      [("a", TapType.strT)] ∧
    (processParam [] ⟨initialTap "" false, false, false, []⟩
        ⟨"b", ParamKind.positionalOrKeyword,
          some (Annot.declA (TapType.namedT "int")), none⟩).tap.annots =
      [("b", TapType.namedT "int")] ∧
    (processParam [] ⟨initialTap "" false, false, false, []⟩
        ⟨"c", ParamKind.positionalOrKeyword, none, none⟩).tap.annots = [] ∧
    (processParam [] ⟨initialTap "" false, false, false,
        [("a", "ov")]⟩
        ⟨"a", ParamKind.positionalOrKeyword, some Annot.anyA, some "9"⟩).tap.annots =
      (processParam [] ⟨initialTap "" false, false, false, []⟩
        ⟨"a", ParamKind.positionalOrKeyword, some Annot.anyA, none⟩).tap.annots := by
  refine ⟨?_, ?_, ?_, ?_⟩
  · exact (tapify_type_resolution [] _ _ rfl).2.1 rfl
  · exact (tapify_type_resolution [] _ _ rfl).2.2.1 (TapType.namedT "int") rfl
  · exact (tapify_type_resolution [] _ _ rfl).1 rfl
  · exact (tapify_type_resolution [] ⟨initialTap "" false, false, false, []⟩
      ⟨"a", ParamKind.positionalOrKeyword, some Annot.anyA, none⟩ rfl).2.2.2
      [("a", "ov")] (some "9")

/-- Claim C2: leftover override entries make `tapify` fail with the
unknown-keyword-arguments error listing them exactly when the effective
`known_only` is false (the caller flag was false and no VAR_KEYWORD
parameter forced it); on that path the callable is never invoked.  When
the effective `known_only` is true, overrides whose names match no
parameter are silently dropped: appending them changes nothing about
the result, and no unknown-argument error can occur. -/
theorem tapify_unknown_overrides (docParse : Option String → DocstringInfo)
    (parser : Parser) (c : Callable) (ko eb : Bool)
    (fk junk : List (String × String)) (st : BuildState)
    (hst : st = schemaState (docParse (selectDoc c)) ko eb fk c.params) :
    (st.funcKwargs ≠ [] → st.knownOnly = false →
      tapify docParse parser c ko eb fk =
        Except.error (TapifyError.unknownKwargs st.funcKwargs) ∧
      ∀ d, tapify docParse parser c ko eb fk ≠ Except.ok d) ∧
    (st.knownOnly = true → (∀ p ∈ c.params, p.name ∉ junk.map Prod.fst) →
      tapify docParse parser c ko eb (fk ++ junk) =
        tapify docParse parser c ko eb fk ∧
      ∀ l, tapify docParse parser c ko eb (fk ++ junk) ≠
        Except.error (TapifyError.unknownKwargs l)) := by
  subst hst
  constructor
  · intro hne hko
    have h1 : tapify docParse parser c ko eb fk =
        Except.error (TapifyError.unknownKwargs
          (schemaState (docParse (selectDoc c)) ko eb fk c.params).funcKwargs) :=
      tapifyCore_error_unknown parser (docParse (selectDoc c)) c.params ko eb fk
        hne hko
    refine ⟨h1, fun d hd => ?_⟩
    rw [h1] at hd
    exact Except.noConfusion hd
  · intro hko hj
    have hS := schemaState_appendJunk (docParse (selectDoc c)) ko eb fk junk
      c.params hj
    have hko' : (schemaState (docParse (selectDoc c)) ko eb (fk ++ junk)
        c.params).knownOnly = true := by
      rw [hS]
      exact hko
    constructor
    · rw [show tapify docParse parser c ko eb (fk ++ junk) =
          tapifyCore parser (docParse (selectDoc c)) c.params ko eb (fk ++ junk)
          from rfl,
        show tapify docParse parser c ko eb fk =
          tapifyCore parser (docParse (selectDoc c)) c.params ko eb fk from rfl,
        tapifyCore_lenient parser (docParse (selectDoc c)) c.params ko eb
          (fk ++ junk) hko',
        tapifyCore_lenient parser (docParse (selectDoc c)) c.params ko eb fk hko,
        hS]
    · exact fun l => tapifyCore_ne_unknown parser (docParse (selectDoc c))
        c.params ko eb (fk ++ junk) hko' l

/-- Witness for C2: a bogus override on a parameterless function fails
with the unknown-argument error when leniency is off; with leniency on,
appending the bogus override leaves the result unchanged. -/
theorem tapify_unknown_overrides_witness :
    tapify (fun _ => emptyDocstringInfo) (fun _ _ => Except.ok ⟨[], []⟩)
        ⟨false, none, none, []⟩ false false [("bogus", "1")] =
      Except.error (TapifyError.unknownKwargs [("bogus", "1")]) ∧
    tapify (fun _ => emptyDocstringInfo) (fun _ _ => Except.ok ⟨[], []⟩)
        ⟨false, none, none, []⟩ true false ([] ++ [("bogus", "1")]) =
      tapify (fun _ => emptyDocstringInfo) (fun _ _ => Except.ok ⟨[], []⟩)
        ⟨false, none, none, []⟩ true false [] := by
  constructor
  · exact ((tapify_unknown_overrides (fun _ => emptyDocstringInfo)
      (fun _ _ => Except.ok ⟨[], []⟩) ⟨false, none, none, []⟩ false false
      [("bogus", "1")] [] _ rfl).1 (by decide) (by decide)).1
  · exact ((tapify_unknown_overrides (fun _ => emptyDocstringInfo)
      (fun _ _ => Except.ok ⟨[], []⟩) ⟨false, none, none, []⟩ true false
      [] [("bogus", "1")] _ rfl).2 (by decide) (by decide)).1

/-- Claim C3: with a VAR_KEYWORD parameter present, an odd-length
leftover token sequence makes `tapify` fail (the last token is never
silently dropped): the dict comprehension over `tap.extra_args` reads
one index past the end, which raises (modelled as
`TapifyError.indexError`, the failure the design calls
MalformedExtraArgumentsError). -/
theorem tapify_odd_extra_tokens (docParse : Option String → DocstringInfo)
    (parser : Parser) (c : Callable) (ko eb : Bool)
    (fk : List (String × String)) (st : BuildState)
    (hst : st = schemaState (docParse (selectDoc c)) ko eb fk c.params)
    (hkw : st.hasKwargs = true) (res : ParsedResult)
    (hp : parser st.tap true = Except.ok res)
    (hodd : res.extraArgs.length % 2 = 1) :
    tapify docParse parser c ko eb fk = Except.error TapifyError.indexError ∧
    ∀ d, tapify docParse parser c ko eb fk ≠ Except.ok d := by
  subst hst
  have hko := schemaState_knownOnly_of_hasKwargs (docParse (selectDoc c)) ko eb
    fk c.params hkw
  have herr := extraPairs_error_of_odd res.extraArgs hodd
  have h1 : tapify docParse parser c ko eb fk =
      Except.error TapifyError.indexError := by
    rw [show tapify docParse parser c ko eb fk =
        tapifyCore parser (docParse (selectDoc c)) c.params ko eb fk from rfl,
      tapifyCore_lenient parser (docParse (selectDoc c)) c.params ko eb fk hko,
      hp]
    simp [hkw, extraKwargsDict, herr, Except.map]
  refine ⟨h1, fun d hd => ?_⟩
  rw [h1] at hd
  exact Except.noConfusion hd

/-- Witness for C3: a single leftover token `"--extra1"` on a callable
with `**kwargs` yields the index error. -/
theorem tapify_odd_extra_tokens_witness :
    tapify (fun _ => emptyDocstringInfo)
        (fun _ _ => Except.ok ⟨[], ["--extra1"]⟩)
        ⟨false, none, none, [⟨"kwargs", ParamKind.varKeyword, none, none⟩]⟩
        false false [] =
      Except.error TapifyError.indexError :=
  (tapify_odd_extra_tokens (fun _ => emptyDocstringInfo)
    (fun _ _ => Except.ok ⟨[], ["--extra1"]⟩)
    ⟨false, none, none, [⟨"kwargs", ParamKind.varKeyword, none, none⟩]⟩
    false false [] _ rfl (by decide) ⟨[], ["--extra1"]⟩ rfl (by decide)).1

/-- Claim C4: with a VAR_KEYWORD parameter present, the even leftover
tokens `["--extra1", "5", "--extra2", "x"]` become the keyword
arguments `extra1 = "5"` and `extra2 = "x"` of the final call,
whatever the named parsed values are. -/
theorem tapify_varkw_roundtrip (docParse : Option String → DocstringInfo)
    (parser : Parser) (c : Callable) (ko eb : Bool)
    (fk : List (String × String)) (st : BuildState)
    (hst : st = schemaState (docParse (selectDoc c)) ko eb fk c.params)
    (hkw : st.hasKwargs = true) (vals : List (String × String))
    (hp : parser st.tap true =
      Except.ok ⟨vals, ["--extra1", "5", "--extra2", "x"]⟩) :
    tapify docParse parser c ko eb fk =
      Except.ok (pyUpdate vals [("extra1", "5"), ("extra2", "x")]) ∧
    pyLookup (pyUpdate vals [("extra1", "5"), ("extra2", "x")]) "extra1" =
      some "5" ∧
    pyLookup (pyUpdate vals [("extra1", "5"), ("extra2", "x")]) "extra2" =
      some "x" := by
  subst hst
  have hko := schemaState_knownOnly_of_hasKwargs (docParse (selectDoc c)) ko eb
    fk c.params hkw
  have hd : extraKwargsDict ["--extra1", "5", "--extra2", "x"] =
      Except.ok [("extra1", "5"), ("extra2", "x")] := by rfl
  refine ⟨?_, ?_, ?_⟩
  · rw [show tapify docParse parser c ko eb fk =
        tapifyCore parser (docParse (selectDoc c)) c.params ko eb fk from rfl,
      tapifyCore_lenient parser (docParse (selectDoc c)) c.params ko eb fk hko,
      hp]
    simp [hkw, hd]
  · rw [show pyUpdate vals [("extra1", "5"), ("extra2", "x")] =
        pyInsert (pyInsert vals "extra1" "5") "extra2" "x" from rfl,
      pyLookup_insert, if_neg (by decide), pyLookup_insert, if_pos rfl]
  · rw [show pyUpdate vals [("extra1", "5"), ("extra2", "x")] =
        pyInsert (pyInsert vals "extra1" "5") "extra2" "x" from rfl,
      pyLookup_insert, if_pos rfl]

/-- Witness for C4: with named parsed value `named = "0"`, the two extra
pairs appear as keyword arguments in the final call. -/
theorem tapify_varkw_roundtrip_witness :
    tapify (fun _ => emptyDocstringInfo)
        (fun _ _ => Except.ok ⟨[("named", "0")], ["--extra1", "5", "--extra2", "x"]⟩)
        ⟨false, none, none,
          [⟨"named", ParamKind.positionalOrKeyword, none, some "0"⟩,
           ⟨"kwargs", ParamKind.varKeyword, none, none⟩]⟩ false false [] =
      Except.ok (pyUpdate [("named", "0")] [("extra1", "5"), ("extra2", "x")]) ∧
    pyLookup (pyUpdate [("named", "0")] [("extra1", "5"), ("extra2", "x")])
      "extra1" = some "5" ∧
    pyLookup (pyUpdate [("named", "0")] [("extra1", "5"), ("extra2", "x")])
      "extra2" = some "x" :=
  tapify_varkw_roundtrip (fun _ => emptyDocstringInfo)
    (fun _ _ => Except.ok ⟨[("named", "0")], ["--extra1", "5", "--extra2", "x"]⟩)
    ⟨false, none, none,
      [⟨"named", ParamKind.positionalOrKeyword, none, some "0"⟩,
       ⟨"kwargs", ParamKind.varKeyword, none, none⟩]⟩ false false [] _ rfl
    (by decide) [("named", "0")] rfl

/-- Counterexample to C5 as stated: a leftover token `"-x"` is not the
flag `"--x"` of the named parameter `x`, yet strips to the key `"x"`;
the merge then overrides the named parsed value `x = "1"` with `"2"`,
so the two mappings are not disjoint by construction and a named value
is overridden. -/
theorem tapify_varkw_disjoint_counterexample :
    tapify (fun _ => emptyDocstringInfo)
        (fun _ _ => Except.ok ⟨[("x", "1")], ["-x", "2"]⟩)
        ⟨false, none, none,
          [⟨"x", ParamKind.positionalOrKeyword, none, none⟩,
           ⟨"kwargs", ParamKind.varKeyword, none, none⟩]⟩ false false [] =
      Except.ok [("x", "2")] ∧
    pyLstripDash "-x" = "x" ∧
    pyLookup [("x", "2")] "x" ≠ some "1" := by
  refine ⟨by rfl, by decide, by decide⟩

/-- Claim C5 (amended): the merge of the variadic entries into the final
keyword-argument dict uses Python dict-update semantics, so a variadic
entry overrides a named value when their keys collide; the keys are
disjoint — and hence no named value is overridden — exactly under the
hypothesis that no stripped extra flag equals a key of the named parsed
values. -/
theorem tapify_varkw_disjoint_amended (docParse : Option String → DocstringInfo)
    (parser : Parser) (c : Callable) (ko eb : Bool)
    (fk : List (String × String)) (st : BuildState)
    (hst : st = schemaState (docParse (selectDoc c)) ko eb fk c.params)
    (hkw : st.hasKwargs = true) (res : ParsedResult)
    (ps : List (String × String))
    (hp : parser st.tap true = Except.ok res)
    (hpairs : extraPairs res.extraArgs = Except.ok ps)
    (hdisj : ∀ q ∈ ps, pyLookup res.values q.1 = none) :
    tapify docParse parser c ko eb fk =
      Except.ok (pyUpdate res.values (buildPyDict ps)) ∧
    ∀ k v, pyLookup res.values k = some v →
      pyLookup (pyUpdate res.values (buildPyDict ps)) k = some v := by
  subst hst
  have hko := schemaState_knownOnly_of_hasKwargs (docParse (selectDoc c)) ko eb
    fk c.params hkw
  have hd : extraKwargsDict res.extraArgs = Except.ok (buildPyDict ps) := by
    rw [extraKwargsDict, hpairs]
    rfl
  constructor
  · rw [show tapify docParse parser c ko eb fk =
        tapifyCore parser (docParse (selectDoc c)) c.params ko eb fk from rfl,
      tapifyCore_lenient parser (docParse (selectDoc c)) c.params ko eb fk hko,
      hp]
    simp [hkw, hd]
  · intro k v hkv
    have hnot : ∀ q ∈ buildPyDict ps, q.1 ≠ k := by
      intro q hq hqk
      have hmem := mem_buildPyDict_fst ps q hq
      rw [hqk] at hmem
      rcases List.mem_map.mp hmem with ⟨r, hr, hr1⟩
      have hnone := hdisj r hr
      rw [hr1] at hnone
      rw [hnone] at hkv
      exact Option.noConfusion hkv
    rw [pyLookup_pyUpdate_of_not_mem res.values (buildPyDict ps) k hnot]
    exact hkv

/-- Witness for the amended C5: extra flag `--y` does not collide with
the named value `x`, so `x = "1"` survives the merge. -/
theorem tapify_varkw_disjoint_amended_witness :
    tapify (fun _ => emptyDocstringInfo)
        (fun _ _ => Except.ok ⟨[("x", "1")], ["--y", "2"]⟩)
        ⟨false, none, none,
          [⟨"x", ParamKind.positionalOrKeyword, none, none⟩,
           ⟨"kwargs", ParamKind.varKeyword, none, none⟩]⟩ false false [] =
      Except.ok (pyUpdate [("x", "1")] (buildPyDict [("y", "2")])) ∧
    pyLookup (pyUpdate [("x", "1")] (buildPyDict [("y", "2")])) "x" =
      some "1" := by
  have h := tapify_varkw_disjoint_amended (fun _ => emptyDocstringInfo)
    (fun _ _ => Except.ok ⟨[("x", "1")], ["--y", "2"]⟩)
    ⟨false, none, none,
      [⟨"x", ParamKind.positionalOrKeyword, none, none⟩,
       ⟨"kwargs", ParamKind.varKeyword, none, none⟩]⟩ false false [] _ rfl
    (by decide) ⟨[("x", "1")], ["--y", "2"]⟩ [("y", "2")] rfl (by rfl)
    (by decide)
  exact ⟨h.1, h.2 "x" "1" (by decide)⟩

/-- Claim C9: for a class, documentation is taken from the constructor
when it has some, otherwise from the class itself; for a function, from
the function; when no documentation exists at all, the pipeline runs
with the empty DocstringInfo rather than failing. -/
theorem tapify_docstring_selection (docParse : Option String → DocstringInfo)
    (parser : Parser) (c : Callable) (ko eb : Bool)
    (fk : List (String × String)) :
    (∀ d, c.isClass = true → c.initDoc = some d → selectDoc c = some d) ∧
    (c.isClass = true → c.initDoc = none → selectDoc c = c.ownDoc) ∧
    (c.isClass = false → selectDoc c = c.ownDoc) ∧
    (docParse none = emptyDocstringInfo → c.initDoc = none → c.ownDoc = none →
      tapify docParse parser c ko eb fk =
        tapifyCore parser emptyDocstringInfo c.params ko eb fk) := by
  refine ⟨?_, ?_, ?_, ?_⟩
  · intro d hc hi
    simp [selectDoc, hc, hi]
  · intro hc hi
    simp [selectDoc, hi]
  · intro hc
    simp [selectDoc, hc]
  · intro hdp hi ho
    have hsel : selectDoc c = none := by simp [selectDoc, hi, ho]
    rw [show tapify docParse parser c ko eb fk =
        tapifyCore parser (docParse (selectDoc c)) c.params ko eb fk from rfl,
      hsel, hdp]

/-- Witness for C9: constructor doc preferred, class doc as fallback,
function doc for functions, and a fully undocumented callable runs the
pipeline with the empty DocstringInfo and still succeeds. -/
theorem tapify_docstring_selection_witness :
    selectDoc ⟨true, some "initdoc", some "classdoc", []⟩ = some "initdoc" ∧
    selectDoc ⟨true, none, some "classdoc", []⟩ = some "classdoc" ∧
    selectDoc ⟨false, some "ignored", some "funcdoc", []⟩ = some "funcdoc" ∧
    tapify (fun _ => emptyDocstringInfo) (fun _ _ => Except.ok ⟨[], []⟩)
        ⟨true, none, none, []⟩ false false [] =
      tapifyCore (fun _ _ => Except.ok ⟨[], []⟩) emptyDocstringInfo [] false
        false [] := by
  refine ⟨?_, ?_, ?_, ?_⟩
  · exact (tapify_docstring_selection (fun _ => emptyDocstringInfo)
      (fun _ _ => Except.ok ⟨[], []⟩) ⟨true, some "initdoc", some "classdoc", []⟩
      false false []).1 "initdoc" rfl rfl
  · exact (tapify_docstring_selection (fun _ => emptyDocstringInfo)
      (fun _ _ => Except.ok ⟨[], []⟩) ⟨true, none, some "classdoc", []⟩
      false false []).2.1 rfl rfl
  · exact (tapify_docstring_selection (fun _ => emptyDocstringInfo)
      (fun _ _ => Except.ok ⟨[], []⟩) ⟨false, some "ignored", some "funcdoc", []⟩
      false false []).2.2.1 rfl
  · exact (tapify_docstring_selection (fun _ => emptyDocstringInfo)
      (fun _ _ => Except.ok ⟨[], []⟩) ⟨true, none, none, []⟩
      false false []).2.2.2 rfl rfl rfl

/-- Claim C10: the dict built from the leftover extra tokens maps each
stripped flag name to the value of its last occurrence — the find over
the reversed pair list — so earlier pairs for the same stripped name are
discarded. -/
theorem extra_tokens_last_wins (extras : List String)
    (ps : List (String × String)) (hps : extraPairs extras = Except.ok ps)
    (k : String) :
    extraKwargsDict extras = Except.ok (buildPyDict ps) ∧
    pyLookup (buildPyDict ps) k =
      (List.find? (fun q => q.1 == k) ps.reverse).map Prod.snd := by
  constructor
  · rw [extraKwargsDict, hps]
    rfl
  · exact pyLookup_buildPyDict ps k

/-- Witness for C10: the flags `--x`, `-x` and `---x` all strip to the
key `x`, and the built dict keeps only the last value `"3"`. -/
theorem extra_tokens_last_wins_witness :
    extraKwargsDict ["--x", "1", "-x", "2", "---x", "3"] =
      Except.ok (buildPyDict [("x", "1"), ("x", "2"), ("x", "3")]) ∧
    pyLookup (buildPyDict [("x", "1"), ("x", "2"), ("x", "3")]) "x" =
      some "3" ∧
    buildPyDict [("x", "1"), ("x", "2"), ("x", "3")] = [("x", "3")] := by
  refine ⟨(extra_tokens_last_wins ["--x", "1", "-x", "2", "---x", "3"]
      [("x", "1"), ("x", "2"), ("x", "3")] (by rfl) "x").1,
    ((extra_tokens_last_wins ["--x", "1", "-x", "2", "---x", "3"]
      [("x", "1"), ("x", "2"), ("x", "3")] (by rfl) "x").2).trans
      (by decide),
    by decide⟩

end Tapify
